import Mathlib

/-!
Shallow embedding of the Corp-Asset-Hub server core (src/index.js):
the approval workflow on the `requests`, `assets`, `assignedAssets`,
`employeeAffiliations`, `users` and `payments` MongoDB collections.

Collections are modelled as lists of records; MongoDB `findOne` is
`List.find?` (first match), `updateOne` updates the first matching
document, `deleteOne` deletes the first matching document, `insertOne`
appends.  Dates are modelled as `Nat` timestamps supplied by the caller,
ObjectIds as `Nat` (a `nextId` counter in the state supplies fresh ids
for inserts).
-/

namespace AssetVerse

/-- A `users` collection document (fields used by the core routes). -/
structure User where
  email : String
  role : String
  packageLimit : Int
  currentEmployees : Int
  companyLogo : String
deriving Repr, DecidableEq

/-- An `assets` collection document. -/
structure Asset where
  id : Nat
  hrEmail : String
  productName : String
  productType : String
  productQuantity : Int
deriving Repr, DecidableEq

/-- A `requests` collection document. -/
structure Request where
  id : Nat
  requesterEmail : String
  requesterName : String
  assetId : Nat
  assetName : String
  assetType : String
  assetImage : String
  hrEmail : String
  companyName : String
  requestStatus : String
  approvalDate : Option Nat
deriving Repr, DecidableEq

/-- An `assignedAssets` collection document. -/
structure Assignment where
  id : Nat
  assetId : Nat
  assetName : String
  assetType : String
  assetImage : String
  employeeEmail : String
  employeeName : String
  hrEmail : String
  companyName : String
  assignmentDate : Nat
  status : String
  returnDate : Option Nat
deriving Repr, DecidableEq

/-- An `employeeAffiliations` collection document. -/
structure Affiliation where
  id : Nat
  employeeEmail : String
  employeeName : String
  hrEmail : String
  companyName : String
  companyLogo : String
  role : String
  affiliationDate : Nat
deriving Repr, DecidableEq

/-- A `payments` collection document (fields the core consumes). -/
structure Payment where
  hrEmail : String
  amount : Int
  transactionId : String
  newPackageLimit : Int
deriving Repr, DecidableEq

/-- The whole database state. -/
structure DB where
  users : List User
  assets : List Asset
  requests : List Request
  assignedAssets : List Assignment
  employeeAffiliations : List Affiliation
  payments : List Payment
  nextId : Nat
deriving Repr, DecidableEq

/-- MongoDB `updateOne`: apply `f` to the first document matching `p`. -/
def updateFirst (p : α → Bool) (f : α → α) : List α → List α
  | [] => []
  | x :: xs => if p x then f x :: xs else x :: updateFirst p f xs

/-- MongoDB `deleteOne`: remove the first document matching `p`. -/
def deleteFirst (p : α → Bool) : List α → List α
  | [] => []
  | x :: xs => if p x then xs else x :: deleteFirst p xs

/-- The HTTP outcome the routes send: a 404, or `res.send(result)` with the
update outcome's matched/modified counts. -/
inductive HttpResult where
  | notFound
  | ok (matched : Nat) (modified : Nat)
deriving Repr, DecidableEq

/-- The `$set` of `PATCH /requests/:id`: requestStatus and approvalDate. -/
def applyDecision (r : Request) (status : String) (now : Nat) : Request :=
  { r with requestStatus := status, approvalDate := some now }

/-- The `assignedAsset` document built in the approved branch of
`PATCH /requests/:id`, snapshotting the request's fields. -/
def mkAssignment (request : Request) (aid : Nat) (now : Nat) : Assignment :=
  { id := aid
    assetId := request.assetId
    assetName := request.assetName
    assetType := request.assetType
    assetImage := request.assetImage
    employeeEmail := request.requesterEmail
    employeeName := request.requesterName
    hrEmail := request.hrEmail
    companyName := request.companyName
    assignmentDate := now
    status := "assigned"
    returnDate := none }

/-- The `newAffiliation` document built in the approved branch of
`PATCH /requests/:id`. -/
def mkAffiliation (request : Request) (logo : String) (aid : Nat) (now : Nat) :
    Affiliation :=
  { id := aid
    employeeEmail := request.requesterEmail
    employeeName := request.requesterName
    hrEmail := request.hrEmail
    companyName := request.companyName
    companyLogo := logo
    role := "employee"
    affiliationDate := now }

/-- The `hrUser?.companyLogo || ""` lookup of the approved branch of
`PATCH /requests/:id`. -/
def hrLogo (users : List User) (request : Request) : String :=
  match users.find? (fun u => u.email == request.hrEmail) with
  | some hrUser => hrUser.companyLogo
  | none => ""

/-- The side effects of the `status === "approved"` branch of
`PATCH /requests/:id`: decrement the asset quantity, insert the
assignment, and reconcile the affiliation (insert + seat-count increment
only when the (employee, HR) pair has no affiliation yet). -/
def cascadeApprove (db : DB) (request : Request) (now : Nat) : DB :=
  let assets1 := updateFirst (fun a => a.id == request.assetId)
    (fun a => { a with productQuantity := a.productQuantity - 1 }) db.assets
  let assigned1 := db.assignedAssets ++ [mkAssignment request db.nextId now]
  match db.employeeAffiliations.find?
      (fun a => a.employeeEmail == request.requesterEmail &&
        a.hrEmail == request.hrEmail) with
  | some _ =>
    { db with
      assets := assets1
      assignedAssets := assigned1
      nextId := db.nextId + 1 }
  | none =>
    { db with
      assets := assets1
      assignedAssets := assigned1
      users := (updateFirst (fun u => u.email == request.hrEmail)
        (fun u => { u with currentEmployees := u.currentEmployees + 1 }) db.users)
      employeeAffiliations :=
        (db.employeeAffiliations ++
          [mkAffiliation request (hrLogo db.users request) (db.nextId + 1) now])
      nextId := db.nextId + 2 }

/-- `PATCH /requests/:id` (the `decide` operation of the spec): look the
request up, 404 when absent, otherwise unconditionally apply the decision
and, when it is "approved", run the cascade.  Returns the new state and
the update outcome sent to the caller. -/
def decide (db : DB) (id : Nat) (status : String) (now : Nat) :
    DB × HttpResult :=
  match db.requests.find? (fun r => r.id == id) with
  | none => (db, HttpResult.notFound)
  | some request =>
    let db1 : DB :=
      { db with requests := (updateFirst (fun r => r.id == id)
          (fun r => applyDecision r status now) db.requests) }
    let res := HttpResult.ok 1
      (if applyDecision request status now = request then 0 else 1)
    if status == "approved" then (cascadeApprove db1 request now, res)
    else (db1, res)

/-- `PATCH /return-asset/:id` (the `returnAsset` operation): set the
assignment's status to "returned" unconditionally, then (re-)read the
assignment and, when found, increment the referenced asset's quantity. -/
def returnAsset (db : DB) (id : Nat) (now : Nat) : DB × HttpResult :=
  let p := fun (a : Assignment) => a.id == id
  let f := fun (a : Assignment) =>
    { a with status := "returned", returnDate := some now }
  let matched := if db.assignedAssets.any p then 1 else 0
  let modified :=
    match db.assignedAssets.find? p with
    | some a => if f a = a then 0 else 1
    | none => 0
  let assigned1 := updateFirst p f db.assignedAssets
  let db1 : DB := { db with assignedAssets := assigned1 }
  match assigned1.find? p with
  | some assignedDoc =>
    ({ db1 with assets := (updateFirst (fun a => a.id == assignedDoc.assetId)
        (fun a => { a with productQuantity := a.productQuantity + 1 })
        db1.assets) },
     HttpResult.ok matched modified)
  | none => (db1, HttpResult.ok matched modified)

/-- `DELETE /remove-employee/:id` (the `removeAffiliation` operation):
404 when the affiliation is absent, otherwise delete it and decrement the
affiliated HR's `currentEmployees` by 1. -/
def removeEmployee (db : DB) (id : Nat) : DB × HttpResult :=
  match db.employeeAffiliations.find? (fun a => a.id == id) with
  | none => (db, HttpResult.notFound)
  | some affiliation =>
    ({ db with
        employeeAffiliations :=
          (deleteFirst (fun a => a.id == id) db.employeeAffiliations)
        users := (updateFirst (fun u => u.email == affiliation.hrEmail)
          (fun u => { u with currentEmployees := u.currentEmployees - 1 })
          db.users) },
     HttpResult.ok 1 1)

/-- `POST /payments`: record the payment and overwrite the HR's
`packageLimit` with the payment's `newPackageLimit`, unconditionally. -/
def savePayment (db : DB) (payment : Payment) : DB :=
  { db with
    payments := db.payments ++ [payment]
    users := (updateFirst (fun u => u.email == payment.hrEmail)
      (fun u => { u with packageLimit := payment.newPackageLimit }) db.users) }

/-- Number of affiliation records for one (employee, HR) pair. -/
def pairCount (db : DB) (e h : String) : Nat :=
  db.employeeAffiliations.countP
    (fun a => a.employeeEmail == e && a.hrEmail == h)

/-- A sample HR user, fresh account: `packageLimit 5`, `currentEmployees 0`. -/
def hrUser0 : User :=
  { email := "h", role := "hr", packageLimit := 5, currentEmployees := 0,
    companyLogo := "logo" }

/-- A sample asset owned by `hrUser0`, five in stock. -/
def asset0 : Asset :=
  { id := 7, hrEmail := "h", productName := "Laptop",
    productType := "Returnable", productQuantity := 5 }

/-- A sample pending request by employee `e` for `asset0`. -/
def request0 : Request :=
  { id := 1, requesterEmail := "e", requesterName := "E", assetId := 7,
    assetName := "Laptop", assetType := "Returnable", assetImage := "",
    hrEmail := "h", companyName := "C", requestStatus := "pending",
    approvalDate := none }

/-- A sample state: one HR, one asset in stock, one pending request. -/
def db0 : DB :=
  { users := [hrUser0], assets := [asset0], requests := [request0],
    assignedAssets := [], employeeAffiliations := [], payments := [],
    nextId := 10 }

/-- A sample state like `db0` but with the asset out of stock. -/
def dbEmptyStock : DB :=
  { db0 with assets := [{ asset0 with productQuantity := 0 }] }

/-- A sample assignment of `asset0` that has already been returned. -/
def returnedAssignment0 : Assignment :=
  { id := 3, assetId := 7, assetName := "Laptop", assetType := "Returnable",
    assetImage := "", employeeEmail := "e", employeeName := "E", hrEmail := "h",
    companyName := "C", assignmentDate := 0, status := "returned",
    returnDate := some 0 }

/-- A sample state with an already-returned assignment on the books. -/
def dbReturned : DB := { db0 with assignedAssets := [returnedAssignment0] }

/-- A pending request by employee `e` with a chosen request id. -/
def seatRequest (n : Nat) (e : String) : Request :=
  { request0 with id := n, requesterEmail := e, requesterName := e }

/-- A sample state: fresh HR with `packageLimit 5`, ten assets in stock and
six pending requests from six distinct employees. -/
def dbSeats : DB :=
  { db0 with
    assets := [{ asset0 with productQuantity := 10 }]
    requests := [seatRequest 1 "e1", seatRequest 2 "e2", seatRequest 3 "e3",
      seatRequest 4 "e4", seatRequest 5 "e5", seatRequest 6 "e6"] }

/-- The state after all six requests of `dbSeats` are approved. -/
def dbSeatsFinal : DB :=
  (decide (decide (decide (decide (decide (decide dbSeats
    1 "approved" 0).1 2 "approved" 0).1 3 "approved" 0).1
    4 "approved" 0).1 5 "approved" 0).1 6 "approved" 0).1

/-- A sample affiliation of employee `e` with HR `h`. -/
def affiliation0 : Affiliation :=
  { id := 4, employeeEmail := "e", employeeName := "E", hrEmail := "h",
    companyName := "C", companyLogo := "logo", role := "employee",
    affiliationDate := 0 }

/-- A sample state with one affiliation and the HR's seat count at 1. -/
def dbAff : DB :=
  { db0 with
    users := [{ hrUser0 with currentEmployees := 1 }]
    employeeAffiliations := [affiliation0] }

theorem updateFirst_of_forall_not (p : α → Bool) (f : α → α) (l : List α)
    (h : ∀ x ∈ l, p x = false) : updateFirst p f l = l := by
  induction l with
  | nil => rfl
  | cons x xs ih =>
    simp only [updateFirst, h x (List.mem_cons_self x xs)]
    simp only [Bool.false_eq_true, if_false, List.cons.injEq, true_and]
    exact ih fun y hy => h y (List.mem_cons_of_mem x hy)

theorem updateFirst_of_find?_none (p : α → Bool) (f : α → α) (l : List α)
    (h : l.find? p = none) : updateFirst p f l = l :=
  updateFirst_of_forall_not p f l (by simpa using List.find?_eq_none.mp h)

theorem find?_updateFirst (p : α → Bool) (f : α → α) (l : List α) (x : α)
    (hx : l.find? p = some x) (hfx : p (f x) = true) :
    (updateFirst p f l).find? p = some (f x) := by
  induction l with
  | nil => simp at hx
  | cons y ys ih =>
    by_cases hy : p y = true
    · rw [List.find?_cons_of_pos _ hy] at hx
      cases hx
      simp only [updateFirst, hy, if_true]
      exact List.find?_cons_of_pos _ hfx
    · rw [List.find?_cons_of_neg _ hy] at hx
      simp only [updateFirst]
      rw [if_neg hy, List.find?_cons_of_neg _ hy]
      exact ih hx

theorem updateFirst_updateFirst (p : α → Bool) (f g : α → α) (l : List α)
    (hp : ∀ x, p x = true → p (f x) = true) :
    updateFirst p g (updateFirst p f l) = updateFirst p (fun x => g (f x)) l := by
  induction l with
  | nil => rfl
  | cons y ys ih =>
    by_cases hy : p y = true
    · simp only [updateFirst, hy, if_true, hp y hy]
    · simp only [updateFirst]
      rw [if_neg hy]
      simp only [updateFirst]
      rw [if_neg hy, ih, if_neg hy]

theorem updateFirst_congr_id (p : α → Bool) (f : α → α) (l : List α)
    (h : ∀ x, f x = x) : updateFirst p f l = l := by
  induction l with
  | nil => rfl
  | cons y ys ih => simp only [updateFirst, h y, ih, ite_self]

theorem updateFirst_append_of_forall_not (p : α → Bool) (f : α → α)
    (l l' : List α) (h : ∀ x ∈ l, p x = false) :
    updateFirst p f (l ++ l') = l ++ updateFirst p f l' := by
  induction l with
  | nil => rfl
  | cons x xs ih =>
    simp only [List.cons_append, updateFirst, h x (List.mem_cons_self x xs)]
    simp only [Bool.false_eq_true, if_false, List.cons.injEq, true_and]
    exact ih fun y hy => h y (List.mem_cons_of_mem x hy)

theorem find?_append_of_forall_not (p : α → Bool) (l l' : List α)
    (h : ∀ x ∈ l, p x = false) : (l ++ l').find? p = l'.find? p := by
  induction l with
  | nil => rfl
  | cons x xs ih =>
    rw [List.cons_append, List.find?_cons_of_neg _ (by simp [h x (List.mem_cons_self x xs)])]
    exact ih fun y hy => h y (List.mem_cons_of_mem x hy)

theorem deleteFirst_length (p : α → Bool) (l : List α) (x : α)
    (h : l.find? p = some x) : (deleteFirst p l).length + 1 = l.length := by
  induction l with
  | nil => simp at h
  | cons y ys ih =>
    by_cases hy : p y = true
    · simp only [deleteFirst, hy, if_true, List.length_cons]
    · rw [List.find?_cons_of_neg _ hy] at h
      simp only [deleteFirst]
      rw [if_neg hy]
      simp only [List.length_cons]
      rw [ih h]

/-- C1: `decide` on a request that is no longer pending does not fail with a
Conflict and re-runs the approval cascade: starting from `db0`, approving
request 1 twice leaves the request non-pending after the first call, yet the
second call reports a successful update, decrements the asset quantity a
second time (5 → 3) and inserts a second assignment — the cascade is not
exactly-once per request. -/
theorem decide_reruns_cascade_on_decided_request :
    ((decide db0 1 "approved" 0).1.requests.find? (fun q => q.id == 1)).map
        Request.requestStatus = some "approved" ∧
    (decide (decide db0 1 "approved" 0).1 1 "approved" 1).2 =
      HttpResult.ok 1 1 ∧
    ((decide (decide db0 1 "approved" 0).1 1 "approved" 1).1.assets.find?
        (fun a => a.id == 7)).map Asset.productQuantity = some 3 ∧
    (decide (decide db0 1 "approved" 0).1 1 "approved" 1).1.assignedAssets.length
      = 2 := by
  refine ⟨rfl, rfl, rfl, rfl⟩

/-- C2: approving a request whose asset has `productQuantity = 0` does not
fail with OutOfStock: the update is reported as a success, the quantity is
driven negative (to -1) and an assignment is still inserted. -/
theorem decide_approves_out_of_stock :
    ((decide dbEmptyStock 1 "approved" 0).1.assets.find?
        (fun a => a.id == 7)).map Asset.productQuantity = some (-1) ∧
    (decide dbEmptyStock 1 "approved" 0).1.assignedAssets.length = 1 ∧
    (decide dbEmptyStock 1 "approved" 0).2 = HttpResult.ok 1 1 := by
  refine ⟨rfl, rfl, rfl⟩

/-- C5: `returnAsset` on an already-returned assignment is not a no-op: the
asset's quantity (5 before the call) is incremented again to 6. -/
theorem returnAsset_double_increments_returned :
    ((returnAsset dbReturned 3 1).1.assets.find? (fun a => a.id == 7)).map
        Asset.productQuantity = some 6 := by
  rfl

/-- C9: the seat-count invariant is not enforced: starting from a fresh HR
account with `packageLimit 5` and approving six requests from six distinct
employees yields a reachable state in which `currentEmployees = 6`
exceeds `packageLimit = 5`. -/
theorem seat_count_exceeds_package_limit :
    (dbSeatsFinal.users.find? (fun u => u.email == "h")).map
        (fun u => (u.currentEmployees, u.packageLimit)) = some (6, 5) ∧
    ∀ u ∈ dbSeatsFinal.users, u.packageLimit < u.currentEmployees := by
  refine ⟨rfl, by decide⟩

/-- C10: `returnAsset` on an id with no matching assignment does not fail:
it leaves the whole state unchanged (in particular no asset quantity is
touched) and reports a successful update outcome with zero matched and zero
modified documents. -/
theorem returnAsset_missing_assignment_noop (db : DB) (id : Nat) (now : Nat)
    (h : db.assignedAssets.find? (fun a => a.id == id) = none) :
    returnAsset db id now = (db, HttpResult.ok 0 0) := by
  have hall : ∀ x ∈ db.assignedAssets, ((fun a => a.id == id) x) = false := by
    simpa using List.find?_eq_none.mp h
  have hany : db.assignedAssets.any (fun a => a.id == id) = false :=
    List.any_eq_false.mpr (by simpa using hall)
  unfold returnAsset
  simp only [updateFirst_of_find?_none _ _ _ h, hany, h]
  rfl

/-- C10 witness: on `db0` (no assignments at all) `returnAsset 3` succeeds
with a zero-document outcome and changes nothing. -/
theorem returnAsset_missing_assignment_noop_witness :
    returnAsset db0 3 1 = (db0, HttpResult.ok 0 0) :=
  returnAsset_missing_assignment_noop db0 3 1 rfl

/-- C7: `decide` with decision "rejected" on an existing pending request
changes only the request ledger (status and approval date of that request):
assets, assignments, affiliations, users and payments are untouched. -/
theorem decide_rejected_frame (db : DB) (id : Nat) (now : Nat) (r : Request)
    (hr : db.requests.find? (fun q => q.id == id) = some r)
    (_hpend : r.requestStatus = "pending") :
    (decide db id "rejected" now).1.assets = db.assets ∧
    (decide db id "rejected" now).1.assignedAssets = db.assignedAssets ∧
    (decide db id "rejected" now).1.employeeAffiliations =
      db.employeeAffiliations ∧
    (decide db id "rejected" now).1.users = db.users ∧
    (decide db id "rejected" now).1.payments = db.payments ∧
    (decide db id "rejected" now).1.requests =
      updateFirst (fun q => q.id == id)
        (fun q => applyDecision q "rejected" now) db.requests := by
  unfold decide
  rw [hr]
  exact ⟨rfl, rfl, rfl, rfl, rfl, rfl⟩

/-- C7 witness: rejecting the pending request of `db0` leaves every other
collection unchanged. -/
theorem decide_rejected_frame_witness :
    request0.requestStatus = "pending" ∧
    (decide db0 1 "rejected" 2).1.assets = db0.assets ∧
    (decide db0 1 "rejected" 2).1.users = db0.users := by
  have h := decide_rejected_frame db0 1 2 request0 rfl rfl
  exact ⟨rfl, h.1, h.2.2.2.1⟩

/-- C4: approving an existing pending request sets its status to "approved"
with the approval date stamped, decrements the referenced asset's quantity
by exactly 1, and appends exactly one new assignment snapshotting the
requester, asset and HR identity with status "assigned". -/
theorem decide_approved_effects (db : DB) (id : Nat) (now : Nat)
    (r : Request) (a : Asset)
    (hr : db.requests.find? (fun q => q.id == id) = some r)
    (_hpend : r.requestStatus = "pending")
    (ha : db.assets.find? (fun x => x.id == r.assetId) = some a) :
    (decide db id "approved" now).1.requests.find? (fun q => q.id == id) =
      some (applyDecision r "approved" now) ∧
    (applyDecision r "approved" now).requestStatus = "approved" ∧
    (applyDecision r "approved" now).approvalDate = some now ∧
    (decide db id "approved" now).1.assets.find? (fun x => x.id == r.assetId) =
      some { a with productQuantity := a.productQuantity - 1 } ∧
    (decide db id "approved" now).1.assignedAssets =
      db.assignedAssets ++ [mkAssignment r db.nextId now] ∧
    (mkAssignment r db.nextId now).status = "assigned" ∧
    (mkAssignment r db.nextId now).employeeEmail = r.requesterEmail ∧
    (mkAssignment r db.nextId now).assetId = r.assetId ∧
    (mkAssignment r db.nextId now).hrEmail = r.hrEmail := by
  have hpr : (r.id == id) = true := by
    have h := List.find?_some (p := fun (q : Request) => q.id == id) hr
    simpa using h
  have hreq : (updateFirst (fun q => q.id == id)
      (fun q => applyDecision q "approved" now) db.requests).find?
      (fun q => q.id == id) = some (applyDecision r "approved" now) :=
    find?_updateFirst _ _ _ r hr hpr
  have hpa : (a.id == r.assetId) = true := by
    have h := List.find?_some (p := fun (x : Asset) => x.id == r.assetId) ha
    simpa using h
  have hasset : (updateFirst (fun x => x.id == r.assetId)
      (fun x => { x with productQuantity := x.productQuantity - 1 })
      db.assets).find? (fun x => x.id == r.assetId) =
      some { a with productQuantity := a.productQuantity - 1 } :=
    find?_updateFirst _ _ _ a ha hpa
  unfold decide
  rw [hr]
  simp only [beq_self_eq_true, if_true]
  unfold cascadeApprove
  cases haff : db.employeeAffiliations.find?
      (fun x => x.employeeEmail == r.requesterEmail &&
        x.hrEmail == r.hrEmail) with
  | none => exact ⟨hreq, rfl, rfl, hasset, rfl, rfl, rfl, rfl, rfl⟩
  | some aff => exact ⟨hreq, rfl, rfl, hasset, rfl, rfl, rfl, rfl, rfl⟩

/-- C4 witness: approving the pending request of `db0` at time 5. -/
theorem decide_approved_effects_witness :
    (decide db0 1 "approved" 5).1.assignedAssets =
      db0.assignedAssets ++ [mkAssignment request0 db0.nextId 5] ∧
    (decide db0 1 "approved" 5).1.assets.find?
      (fun x => x.id == request0.assetId) =
      some { asset0 with productQuantity := asset0.productQuantity - 1 } := by
  have h := decide_approved_effects db0 1 5 request0 asset0 rfl rfl rfl
  exact ⟨h.2.2.2.2.1, h.2.2.2.1⟩

/-- C8: `removeEmployee` on a missing affiliation fails with NotFound and
changes nothing; on an existing affiliation it deletes exactly that record
(the registry shrinks by one), decrements the affiliated HR's
`currentEmployees` by exactly 1, and leaves requests, assignments and
assets untouched. -/
theorem removeEmployee_effects (db : DB) (id : Nat) :
    (db.employeeAffiliations.find? (fun a => a.id == id) = none →
      removeEmployee db id = (db, HttpResult.notFound)) ∧
    (∀ aff, db.employeeAffiliations.find? (fun a => a.id == id) = some aff →
      (removeEmployee db id).1.employeeAffiliations =
        deleteFirst (fun a => a.id == id) db.employeeAffiliations ∧
      (removeEmployee db id).1.employeeAffiliations.length + 1 =
        db.employeeAffiliations.length ∧
      (∀ u, db.users.find? (fun v => v.email == aff.hrEmail) = some u →
        (removeEmployee db id).1.users.find?
            (fun v => v.email == aff.hrEmail) =
          some { u with currentEmployees := u.currentEmployees - 1 }) ∧
      (removeEmployee db id).1.requests = db.requests ∧
      (removeEmployee db id).1.assignedAssets = db.assignedAssets ∧
      (removeEmployee db id).1.assets = db.assets) := by
  constructor
  · intro h
    unfold removeEmployee
    rw [h]
  · intro aff haff
    unfold removeEmployee
    rw [haff]
    refine ⟨rfl, ?_, ?_, rfl, rfl, rfl⟩
    · exact deleteFirst_length _ _ aff haff
    · intro u hu
      have hpu : (u.email == aff.hrEmail) = true := by
        have h := List.find?_some (p := fun (v : User) => v.email == aff.hrEmail) hu
        simpa using h
      exact find?_updateFirst _ _ _ u hu hpu

/-- C8 witness: removing affiliation 4 from `dbAff` deletes the record and
drops the HR's seat count from 1 to 0. -/
theorem removeEmployee_effects_witness :
    dbAff.employeeAffiliations.find? (fun a => a.id == 4) = some affiliation0 ∧
    (removeEmployee dbAff 4).1.employeeAffiliations = [] ∧
    (removeEmployee dbAff 4).1.users.find?
        (fun v => v.email == affiliation0.hrEmail) =
      some { { hrUser0 with currentEmployees := 1 } with
        currentEmployees := (1 : Int) - 1 } := by
  have h := (removeEmployee_effects dbAff 4).2 affiliation0 rfl
  exact ⟨rfl, h.1, h.2.2.1 { hrUser0 with currentEmployees := 1 } rfl⟩

/-- C3: `decide` keeps the affiliation registry at most-once per
(employee, HR) pair: a pair with at most one affiliation record still has
at most one after any `decide` call, and when the request's pair already
has an affiliation an approval writes neither the registry nor any user's
seat count. -/
theorem decide_affiliation_at_most_once (db : DB) (id : Nat) (s : String)
    (now : Nat) (e h : String) (hle : pairCount db e h ≤ 1) :
    pairCount (decide db id s now).1 e h ≤ 1 ∧
    (∀ r aff, db.requests.find? (fun q => q.id == id) = some r →
      db.employeeAffiliations.find?
        (fun x => x.employeeEmail == r.requesterEmail &&
          x.hrEmail == r.hrEmail) = some aff →
      (decide db id s now).1.employeeAffiliations = db.employeeAffiliations ∧
      (decide db id s now).1.users = db.users) := by
  cases hfind : db.requests.find? (fun q => q.id == id) with
  | none =>
    refine ⟨?_, ?_⟩
    · unfold decide
      rw [hfind]
      exact hle
    · intro r aff hrq _
      exact absurd hrq (by simp)
  | some r =>
    by_cases hs : (s == "approved") = true
    · cases haff : db.employeeAffiliations.find?
          (fun x => x.employeeEmail == r.requesterEmail &&
            x.hrEmail == r.hrEmail) with
      | some aff0 =>
        have hstate : (decide db id s now).1.employeeAffiliations =
              db.employeeAffiliations ∧
            (decide db id s now).1.users = db.users := by
          unfold decide cascadeApprove
          simp only [hfind, hs, if_true, haff]
          exact ⟨trivial, trivial⟩
        refine ⟨?_, fun r' aff' hrq' _ => ?_⟩
        · unfold pairCount
          rw [hstate.1]
          exact hle
        · exact hstate
      | none =>
        have hstate : (decide db id s now).1.employeeAffiliations =
            db.employeeAffiliations ++
              [mkAffiliation r (hrLogo db.users r) (db.nextId + 1) now] := by
          unfold decide cascadeApprove
          simp only [hfind, hs, if_true, haff]
        refine ⟨?_, fun r' aff' hrq' haff' => ?_⟩
        · unfold pairCount
          rw [hstate, List.countP_append, List.countP_singleton]
          by_cases hp : ((fun x => x.employeeEmail == e && x.hrEmail == h)
              (mkAffiliation r (hrLogo db.users r) (db.nextId + 1) now)) = true
          · have hpair : r.requesterEmail = e ∧ r.hrEmail = h := by
              simp only [mkAffiliation, Bool.and_eq_true, beq_iff_eq] at hp
              exact hp
            have hzero : db.employeeAffiliations.countP
                (fun x => x.employeeEmail == e && x.hrEmail == h) = 0 := by
              rw [List.countP_eq_zero]
              intro x hx
              have hnot := List.find?_eq_none.mp haff x hx
              rw [hpair.1, hpair.2] at hnot
              exact hnot
            rw [hzero, if_pos hp]
          · rw [if_neg hp]
            simpa using hle
        · injection hrq' with he
          subst he
          rw [haff] at haff'
          exact absurd haff' (by simp)
    · have hstate : (decide db id s now).1.employeeAffiliations =
            db.employeeAffiliations ∧
          (decide db id s now).1.users = db.users := by
        unfold decide
        rw [hfind]
        simp only
        rw [if_neg hs]
        exact ⟨rfl, rfl⟩
      refine ⟨?_, fun r' aff' hrq' _ => ?_⟩
      · unfold pairCount
        rw [hstate.1]
        exact hle
      · exact hstate

/-- C3 witness: in `dbAff` the pair (e, h) already has its affiliation, so
approving request 1 again leaves the registry and the users untouched and
the pair count at 1. -/
theorem decide_affiliation_at_most_once_witness :
    pairCount dbAff "e" "h" ≤ 1 ∧
    pairCount (decide dbAff 1 "approved" 0).1 "e" "h" ≤ 1 ∧
    (decide dbAff 1 "approved" 0).1.employeeAffiliations =
      dbAff.employeeAffiliations ∧
    (decide dbAff 1 "approved" 0).1.users = dbAff.users := by
  have h := decide_affiliation_at_most_once dbAff 1 "approved" 0 "e" "h"
    (by decide)
  exact ⟨by decide, h.1, (h.2 request0 affiliation0 rfl rfl).1,
    (h.2 request0 affiliation0 rfl rfl).2⟩

theorem decide_approved_state (db : DB) (id : Nat) (now : Nat) (r : Request)
    (hr : db.requests.find? (fun q => q.id == id) = some r) :
    (decide db id "approved" now).1.assets =
      updateFirst (fun x => x.id == r.assetId)
        (fun x => { x with productQuantity := x.productQuantity - 1 })
        db.assets ∧
    (decide db id "approved" now).1.assignedAssets =
      db.assignedAssets ++ [mkAssignment r db.nextId now] := by
  unfold decide
  rw [hr]
  simp only [beq_self_eq_true, if_true]
  unfold cascadeApprove
  cases haff : db.employeeAffiliations.find?
      (fun x => x.employeeEmail == r.requesterEmail &&
        x.hrEmail == r.hrEmail) with
  | none => exact ⟨rfl, rfl⟩
  | some aff => exact ⟨rfl, rfl⟩

/-- C6: approving a pending request for a returnable asset and then
returning the created assignment restores the asset list to its
pre-approval state (in particular the asset's quantity) and leaves exactly
one assignment for the hand-off, with status "returned" and the return
date stamped. -/
theorem approve_then_return_roundtrip (db : DB) (id : Nat) (now1 now2 : Nat)
    (r : Request) (a : Asset)
    (hr : db.requests.find? (fun q => q.id == id) = some r)
    (_hpend : r.requestStatus = "pending")
    (_ha : db.assets.find? (fun x => x.id == r.assetId) = some a)
    (_hret : a.productType = "Returnable")
    (hfresh : ∀ x ∈ db.assignedAssets, (x.id == db.nextId) = false) :
    (returnAsset (decide db id "approved" now1).1 db.nextId now2).1.assets =
      db.assets ∧
    (returnAsset (decide db id "approved" now1).1 db.nextId
        now2).1.assignedAssets =
      db.assignedAssets ++
        [{ mkAssignment r db.nextId now1 with
            status := "returned", returnDate := some now2 }] := by
  obtain ⟨hA, hAs⟩ := decide_approved_state db id now1 r hr
  have hupd : updateFirst (fun x => x.id == db.nextId)
      (fun x => { x with status := "returned", returnDate := some now2 })
      (db.assignedAssets ++ [mkAssignment r db.nextId now1]) =
      db.assignedAssets ++
        [{ mkAssignment r db.nextId now1 with
            status := "returned", returnDate := some now2 }] := by
    rw [updateFirst_append_of_forall_not _ _ _ _ hfresh]
    simp [updateFirst, mkAssignment]
  have hfind2 : (db.assignedAssets ++
      [{ mkAssignment r db.nextId now1 with
          status := "returned", returnDate := some now2 }]).find?
      (fun x => x.id == db.nextId) =
      some { mkAssignment r db.nextId now1 with
          status := "returned", returnDate := some now2 } := by
    rw [find?_append_of_forall_not _ _ _ hfresh]
    simp [List.find?, mkAssignment]
  unfold returnAsset
  simp only [hAs]
  rw [hupd, hfind2]
  simp only [mkAssignment, hA]
  refine ⟨?_, trivial⟩
  have hcomp := updateFirst_updateFirst
    (fun y : Asset => y.id == r.assetId)
    (fun y : Asset => { y with productQuantity := y.productQuantity - 1 })
    (fun y : Asset => { y with productQuantity := y.productQuantity + 1 })
    db.assets (fun y hy => hy)
  rw [hcomp]
  refine updateFirst_congr_id _ _ _ ?_
  intro y
  cases y
  simp [Int.sub_add_cancel]

/-- C6 witness: approving `db0`'s pending request at time 3 and returning
the created assignment (id 10) at time 4 restores the asset list and
leaves the single returned assignment. -/
theorem approve_then_return_roundtrip_witness :
    asset0.productType = "Returnable" ∧
    (returnAsset (decide db0 1 "approved" 3).1 db0.nextId 4).1.assets =
      db0.assets ∧
    (returnAsset (decide db0 1 "approved" 3).1 db0.nextId
        4).1.assignedAssets =
      db0.assignedAssets ++
        [{ mkAssignment request0 db0.nextId 3 with
            status := "returned", returnDate := some 4 }] := by
  have h := approve_then_return_roundtrip db0 1 3 4 request0 asset0
    rfl rfl rfl rfl (by simp [db0])
  exact ⟨rfl, h.1, h.2⟩

end AssetVerse
